import Mathlib

/-!
Shallow embedding of the pvz-service reception/product lifecycle core.

The data model mirrors `internal/domain/models` (pvz.go, the product model),
the repository layer mirrors the SQL semantics of
`internal/repository/postgres` (product_repo.go, the reception and pvz
repositories), and the service layer is a line-by-line translation of
`internal/services` (product_service.go, reception_service.go, pvz_service.go).

Identifiers (UUIDs in the source) are modelled as naturals drawn from a
fresh-id counter; timestamps (`time.Time`, filled by `NOW()` defaults) are
naturals, with `0` playing the role of Go's zero `time.Time`
(`IsZero`).  Go `int` values (sequence numbers, counts, page/limit) are
modelled as `Int`.  Every repository call threads the database state, and a
service operation returns its `Except`-style outcome together with the state
at the point it returned, so that state changes on error paths are visible.
-/

namespace PvzService

/-- Reception status, from models: `in_progress` / `close`. -/
inductive ReceptionStatus
  | inProgress
  | close
deriving DecidableEq

/-- A pickup point row (table `pvz`): id, registration_date, city. -/
structure PVZ where
  id : Nat
  registrationDate : Nat
  city : String
deriving DecidableEq

/-- A reception row (table `receptions`): id, date_time, pvz_id, status. -/
structure Reception where
  id : Nat
  dateTime : Nat
  pvzId : Nat
  status : ReceptionStatus
deriving DecidableEq

/-- A product row (table `products`): id, date_time, type, reception_id,
sequence_num. -/
structure Product where
  id : Nat
  dateTime : Nat
  type : String
  receptionId : Nat
  sequenceNum : Int
deriving DecidableEq

/-- The reception returned by the reception service carries its products
(`models.Reception.Products`); repository rows leave the field empty. -/
structure ReceptionWithProducts where
  reception : Reception
  products : List Product
deriving DecidableEq

/-- The database state: the three tables, a fresh-id source standing for the
UUID generator, and the clock backing the `NOW()` column defaults. -/
structure DB where
  pvzs : List PVZ
  receptions : List Reception
  products : List Product
  nextId : Nat
  now : Nat
deriving DecidableEq

/-- Allow-listed cities, from `models.AllowedCities`. -/
def AllowedCities : List String := ["Москва", "Санкт-Петербург", "Казань"]

/-- `models.TypeElectronics`. -/
def TypeElectronics : String := "электроника"

/-- `models.TypeClothes`. -/
def TypeClothes : String := "одежда"

/-- `models.TypeFootwear`. -/
def TypeFootwear : String := "обувь"

/-- `ORDER BY key DESC LIMIT 1`: an element of maximal key, if any. -/
def pickMaxBy (key : α → Int) : List α → Option α
  | [] => none
  | a :: as =>
    match pickMaxBy key as with
    | none => some a
    | some b => some (if key b > key a then b else a)

/-- Rows of `products` belonging to a reception (`WHERE reception_id = $1`). -/
def DB.productsOf (db : DB) (receptionId : Nat) : List Product :=
  db.products.filter (fun p => decide (p.receptionId = receptionId))

/-- Rows of `receptions` that are open for a pickup point
(`WHERE pvz_id = $1 AND status = 'in_progress'`). -/
def DB.openReceptionsOf (db : DB) (pvzId : Nat) : List Reception :=
  db.receptions.filter
    (fun r => decide (r.pvzId = pvzId ∧ r.status = ReceptionStatus.inProgress))

/-- `PVZRepository.GetPVZByID`: `SELECT ... FROM pvz WHERE id = $1`. -/
def DB.GetPVZByID (db : DB) (id : Nat) : Option PVZ :=
  db.pvzs.find? (fun p => decide (p.id = id))

/-- `PVZRepository.CreatePVZ`: `INSERT INTO pvz (city) VALUES ($1)` with a
fresh id and `registration_date = NOW()`. -/
def DB.CreatePVZ (db : DB) (city : String) : PVZ × DB :=
  let pvz : PVZ := ⟨db.nextId, db.now, city⟩
  (pvz, { db with pvzs := db.pvzs ++ [pvz], nextId := db.nextId + 1 })

/-- `ReceptionRepository.CreateReception`: insert with status
`in_progress`, fresh id, `date_time = NOW()`. -/
def DB.CreateReception (db : DB) (pvzId : Nat) : Reception × DB :=
  let r : Reception := ⟨db.nextId, db.now, pvzId, ReceptionStatus.inProgress⟩
  (r, { db with receptions := db.receptions ++ [r], nextId := db.nextId + 1 })

/-- `ReceptionRepository.GetReceptionByID`:
`SELECT ... FROM receptions WHERE id = $1`. -/
def DB.GetReceptionByID (db : DB) (id : Nat) : Option Reception :=
  db.receptions.find? (fun r => decide (r.id = id))

/-- `ReceptionRepository.GetLastOpenReceptionByPVZID`: open receptions of the
pickup point, `ORDER BY date_time DESC LIMIT 1`. -/
def DB.GetLastOpenReceptionByPVZID (db : DB) (pvzId : Nat) : Option Reception :=
  pickMaxBy (fun r => (r.dateTime : Int)) (db.openReceptionsOf pvzId)

/-- `ReceptionRepository.CloseReception`:
`UPDATE receptions SET status = 'close' WHERE id = $1`. -/
def DB.CloseReception (db : DB) (id : Nat) : DB :=
  { db with
    receptions := db.receptions.map
      (fun r => if r.id = id then { r with status := ReceptionStatus.close } else r) }

/-- `ProductRepository.CreateProduct`: insert with a fresh id and
`date_time = NOW()`, returning the row. -/
def DB.CreateProduct (db : DB) (productType : String) (receptionId : Nat)
    (sequenceNum : Int) : Product × DB :=
  let p : Product := ⟨db.nextId, db.now, productType, receptionId, sequenceNum⟩
  (p, { db with products := db.products ++ [p], nextId := db.nextId + 1 })

/-- `ProductRepository.CountProductsByReceptionID`:
`SELECT COUNT(*) FROM products WHERE reception_id = $1`. -/
def DB.CountProductsByReceptionID (db : DB) (receptionId : Nat) : Int :=
  ((db.productsOf receptionId).length : Int)

/-- `ProductRepository.GetLastProductByReceptionID`: products of the
reception, `ORDER BY sequence_num DESC LIMIT 1`. -/
def DB.GetLastProductByReceptionID (db : DB) (receptionId : Nat) : Option Product :=
  pickMaxBy (fun p => p.sequenceNum) (db.productsOf receptionId)

/-- `ProductRepository.DeleteProductByID`:
`DELETE FROM products WHERE id = $1` (reports success even on zero rows). -/
def DB.DeleteProductByID (db : DB) (id : Nat) : DB :=
  { db with products := db.products.filter (fun p => decide (¬ p.id = id)) }

/-- `ORDER BY sequence_num` ascending, modelled by a stable sort. -/
def sortBySeq (l : List Product) : List Product :=
  l.insertionSort (fun a b => a.sequenceNum ≤ b.sequenceNum)

instance : IsTotal Product (fun a b => a.sequenceNum ≤ b.sequenceNum) :=
  ⟨fun a b => le_total a.sequenceNum b.sequenceNum⟩

instance : IsTrans Product (fun a b => a.sequenceNum ≤ b.sequenceNum) :=
  ⟨fun _ _ _ hab hbc => le_trans hab hbc⟩

/-- `ProductRepository.GetProductsByReceptionID`: normalizes `limit` (default
10) and `page` (default 1), pages through the reception's products ordered by
sequence number ascending, and separately counts all of them. -/
def DB.GetProductsByReceptionID (db : DB) (receptionId : Nat) (page limit : Int) :
    List Product × Int :=
  let limit := if limit ≤ 0 then 10 else limit
  let page := if page ≤ 0 then 1 else page
  let offset := (page - 1) * limit
  (((sortBySeq (db.productsOf receptionId)).drop offset.toNat).take limit.toNat,
   ((db.productsOf receptionId).length : Int))

/- ## Service layer -/

/-- Error message of the services' "pvz not found" (NotFound). -/
def errPvzNotFound : String := "pvz not found"

/-- Error message of "invalid product type" (InvalidCategory). -/
def errInvalidType : String := "invalid product type"

/-- Error message of "no open reception found for this pvz" (NoOpenReception). -/
def errNoOpenReception : String := "no open reception found for this pvz"

/-- Error message of "no products in this reception" (EmptyReception). -/
def errNoProducts : String := "no products in this reception"

/-- Error message of "reception not found" (NotFound for receptions). -/
def errReceptionNotFound : String := "reception not found"

/-- Error message of "there is already an open reception for this pvz"
(ConflictAlreadyOpen). -/
def errAlreadyOpen : String := "there is already an open reception for this pvz"

/-- Error message of the city allow-list failure (InvalidLocation). -/
def errInvalidCity : String := "city must be one of: Москва, Санкт-Петербург, Казань"

/-- `PVZService.CreatePVZ`: rejects a city outside `AllowedCities`, otherwise
delegates to the repository insert. -/
def CreatePVZ (db : DB) (city : String) : Except String PVZ × DB :=
  if city ∈ AllowedCities then
    let (pvz, db') := db.CreatePVZ city
    (Except.ok pvz, db')
  else
    (Except.error errInvalidCity, db)

/-- `ReceptionService.CreateReception`: checks the pickup point exists, then
that no open reception exists, then inserts a new open reception. -/
def CreateReception (db : DB) (pvzID : Nat) : Except String Reception × DB :=
  match db.GetPVZByID pvzID with
  | none => (Except.error errPvzNotFound, db)
  | some _ =>
    match db.GetLastOpenReceptionByPVZID pvzID with
    | some _ => (Except.error errAlreadyOpen, db)
    | none =>
      let (r, db') := db.CreateReception pvzID
      (Except.ok r, db')

/-- `ReceptionService.CloseLastReception`: locates the open reception, closes
it, re-reads the record and returns it.  The source dereferences the re-read
record without a nil check; the (unreachable) nil case is modelled as an
error outcome. -/
def CloseLastReception (db : DB) (pvzID : Nat) : Except String Reception × DB :=
  match db.GetLastOpenReceptionByPVZID pvzID with
  | none => (Except.error errNoOpenReception, db)
  | some openReception =>
    let db' := db.CloseReception openReception.id
    match db'.GetReceptionByID openReception.id with
    | none => (Except.error errReceptionNotFound, db')
    | some updated => (Except.ok updated, db')

/-- `ReceptionService.GetReceptionByID`: finds the reception, then attaches
its products fetched via `GetProductsByReceptionID(id, 1, 1000)`. -/
def GetReceptionByIDService (db : DB) (id : Nat) : Except String ReceptionWithProducts × DB :=
  match db.GetReceptionByID id with
  | none => (Except.error errReceptionNotFound, db)
  | some r =>
    let (products, _total) := db.GetProductsByReceptionID id 1 1000
    (Except.ok ⟨r, products⟩, db)

/-- `ProductService.AddProduct`: checks the pickup point exists, the product
type is one of the three allowed, and an open reception exists; then counts
the reception's products and inserts a product with
`sequence_num = count + 1`. -/
def AddProduct (db : DB) (pvzID : Nat) (productType : String) :
    Except String Product × DB :=
  match db.GetPVZByID pvzID with
  | none => (Except.error errPvzNotFound, db)
  | some _ =>
    if productType ≠ TypeElectronics ∧ productType ≠ TypeClothes ∧
        productType ≠ TypeFootwear then
      (Except.error errInvalidType, db)
    else
      match db.GetLastOpenReceptionByPVZID pvzID with
      | none => (Except.error errNoOpenReception, db)
      | some openReception =>
        let count := db.CountProductsByReceptionID openReception.id
        let (product, db') := db.CreateProduct productType openReception.id (count + 1)
        (Except.ok product, db')

/-- `ProductService.DeleteLastProduct`: locates the open reception (no
pickup-point existence check), locates its maximum-sequence product, and
deletes it by id. -/
def DeleteLastProduct (db : DB) (pvzID : Nat) : Except String Unit × DB :=
  match db.GetLastOpenReceptionByPVZID pvzID with
  | none => (Except.error errNoOpenReception, db)
  | some openReception =>
    match db.GetLastProductByReceptionID openReception.id with
    | none => (Except.error errNoProducts, db)
    | some lastProduct => (Except.ok (), db.DeleteProductByID lastProduct.id)

/- ## Pickup-point listing (`PVZRepository.ListPVZ` and its helpers) -/

/-- Options of the listing call (`models.PVZListOptions`); a zero date stands
for Go's zero `time.Time`. -/
structure PVZListOptions where
  page : Int
  limit : Int
  startDate : Nat
  endDate : Nat
deriving DecidableEq

/-- A pickup point with its receptions and their products
(`models.PVZWithReceptionsResponse`). -/
structure PVZWithReceptionsResponse where
  pvz : PVZ
  receptions : List ReceptionWithProducts
deriving DecidableEq

/-- `ORDER BY date_time` ascending, modelled by a stable sort. -/
def sortByDateTime (l : List Reception) : List Reception :=
  l.insertionSort (fun a b => a.dateTime ≤ b.dateTime)

/-- `ORDER BY p.id` ascending, modelled by a stable sort. -/
def sortPVZById (l : List PVZ) : List PVZ :=
  l.insertionSort (fun a b => a.id ≤ b.id)

/-- `PVZRepository.getReceptionsByPVZIDTx`: the pickup point's receptions,
restricted to `[startDate, endDate]` only when both dates are non-zero,
ordered by `date_time`. -/
def DB.getReceptionsByPVZIDTx (db : DB) (pvzId : Nat) (startDate endDate : Nat) :
    List Reception :=
  if startDate ≠ 0 ∧ endDate ≠ 0 then
    sortByDateTime (db.receptions.filter
      (fun r => decide (r.pvzId = pvzId ∧ startDate ≤ r.dateTime ∧ r.dateTime ≤ endDate)))
  else
    sortByDateTime (db.receptions.filter (fun r => decide (r.pvzId = pvzId)))

/-- `PVZRepository.getProductsByReceptionIDTx`: the reception's products
ordered by sequence number. -/
def DB.getProductsByReceptionIDTx (db : DB) (receptionId : Nat) : List Product :=
  sortBySeq (db.productsOf receptionId)

/-- Pickup points having at least one reception whose `date_time` lies in the
range (the `DISTINCT p.* JOIN receptions` query of `ListPVZ`). -/
def DB.pvzsMatchingRange (db : DB) (startDate endDate : Nat) : List PVZ :=
  db.pvzs.filter (fun p => db.receptions.any
    (fun r => decide (r.pvzId = p.id ∧ startDate ≤ r.dateTime ∧ r.dateTime ≤ endDate)))

/-- `PVZRepository.ListPVZ`: normalizes `limit`/`page`, selects either the
date-filtered pickup points (only when both dates are non-zero) or all of
them, pages through them ordered by id, attaches receptions and products via
the `Tx` helpers, and separately counts the matching pickup points. -/
def DB.ListPVZ (db : DB) (options : PVZListOptions) :
    List PVZWithReceptionsResponse × Int :=
  let limit := if options.limit ≤ 0 then 10 else options.limit
  let page := if options.page ≤ 0 then 1 else options.page
  let offset := (page - 1) * limit
  let rows :=
    if options.startDate ≠ 0 ∧ options.endDate ≠ 0 then
      sortPVZById (db.pvzsMatchingRange options.startDate options.endDate)
    else
      sortPVZById db.pvzs
  let total : Int :=
    if options.startDate ≠ 0 ∧ options.endDate ≠ 0 then
      ((db.pvzsMatchingRange options.startDate options.endDate).length : Int)
    else
      ((db.pvzs.length : Nat) : Int)
  (((rows.drop offset.toNat).take limit.toNat).map (fun p =>
      ⟨p, (db.getReceptionsByPVZIDTx p.id options.startDate options.endDate).map
          (fun r => ⟨r, db.getProductsByReceptionIDTx r.id⟩)⟩),
   total)

/-- `PVZService.ListPVZ` delegates to the repository listing. -/
def ListPVZService (db : DB) (options : PVZListOptions) :
    List PVZWithReceptionsResponse × Int :=
  db.ListPVZ options

/- ## Invariants and iteration helpers -/

/-- The three allowed product types (`AddProduct`'s category check). -/
def ValidType (t : String) : Prop :=
  t = TypeElectronics ∨ t = TypeClothes ∨ t = TypeFootwear

/-- At most one open reception per pickup-point identifier. -/
def OpenInv (db : DB) : Prop :=
  ∀ pvzId : Nat, (db.openReceptionsOf pvzId).length ≤ 1

/-- Well-formedness delivered by the id generator: stored ids are below the
counter, and product ids are pairwise distinct. -/
structure WF (db : DB) : Prop where
  pvzIdLt : ∀ v ∈ db.pvzs, v.id < db.nextId
  recIdLt : ∀ r ∈ db.receptions, r.id < db.nextId
  prodIdLt : ∀ p ∈ db.products, p.id < db.nextId
  prodIdsNodup : (db.products.map Product.id).Nodup

/-- State after `n` sequential `AddProduct` calls for the same pickup point
and product type. -/
def iterAppend (pvzID : Nat) (t : String) (db : DB) : Nat → DB
  | 0 => db
  | n + 1 => (AddProduct (iterAppend pvzID t db n) pvzID t).2

/-- The expected sequence numbers `[1, 2, ..., n]`. -/
def seqTarget (n : Nat) : List Int :=
  (List.range n).map (fun i => Int.ofNat i + 1)

/- ## Concrete sample states -/

/-- The empty database. -/
def dbEmpty : DB := ⟨[], [], [], 0, 0⟩

/-- A sample pickup point. -/
def samplePVZ : PVZ := ⟨0, 0, "Москва"⟩

/-- A sample open reception of `samplePVZ`. -/
def sampleReception : Reception := ⟨1, 0, 0, ReceptionStatus.inProgress⟩

/-- A database with one pickup point owning one open, empty reception. -/
def dbOpen : DB := ⟨[samplePVZ], [sampleReception], [], 2, 5⟩

/-- A database whose open reception owns two products (sequence 1 and 2). -/
def dbTwo : DB :=
  ⟨[samplePVZ], [sampleReception],
   [⟨2, 1, TypeElectronics, 1, 1⟩, ⟨3, 2, TypeElectronics, 1, 2⟩], 4, 5⟩

/-- A database with one pickup point and no receptions. -/
def dbPvzOnly : DB := ⟨[samplePVZ], [], [], 1, 5⟩

/-- A reception owning 1001 products. -/
def bigReception : Reception := ⟨0, 0, 0, ReceptionStatus.inProgress⟩

/-- A database whose single reception owns 1001 products with sequence
numbers `1..1001`. -/
def dbBig : DB :=
  ⟨[samplePVZ], [bigReception],
   (List.range 1001).map (fun i => ⟨i + 1, 0, TypeElectronics, 0, (i : Int) + 1⟩),
   1003, 0⟩

end PvzService

deriving instance DecidableEq for Except

namespace PvzService

/- ## Basic lemmas about the repository helpers -/

/-- `pickMaxBy` returns nothing exactly on the empty list. -/
theorem pickMaxBy_eq_none_iff {α} (key : α → Int) (l : List α) :
    pickMaxBy key l = none ↔ l = [] := by
  cases l with
  | nil => simp [pickMaxBy]
  | cons a as =>
    rw [pickMaxBy]
    cases h : pickMaxBy key as <;> simp

/-- The element chosen by `pickMaxBy` belongs to the list. -/
theorem pickMaxBy_mem {α} (key : α → Int) :
    ∀ {l : List α} {a}, pickMaxBy key l = some a → a ∈ l := by
  intro l
  induction l with
  | nil => intro a h; simp [pickMaxBy] at h
  | cons x xs ih =>
    intro a h
    rw [pickMaxBy] at h
    cases hrec : pickMaxBy key xs with
    | none =>
      rw [hrec] at h
      simp only [Option.some.injEq] at h
      exact h ▸ List.mem_cons_self x xs
    | some b =>
      rw [hrec] at h
      simp only [Option.some.injEq] at h
      by_cases hgt : key b > key x
      · rw [if_pos hgt] at h
        exact List.mem_cons_of_mem x (h ▸ ih hrec)
      · rw [if_neg hgt] at h
        exact h ▸ List.mem_cons_self x xs

/-- The element chosen by `pickMaxBy` has maximal key. -/
theorem pickMaxBy_le {α} (key : α → Int) :
    ∀ {l : List α} {a}, pickMaxBy key l = some a → ∀ b ∈ l, key b ≤ key a := by
  intro l
  induction l with
  | nil => intro a h; simp [pickMaxBy] at h
  | cons x xs ih =>
    intro a h b hb
    rw [pickMaxBy] at h
    cases hrec : pickMaxBy key xs with
    | none =>
      rw [hrec] at h
      simp only [Option.some.injEq] at h
      have hxs : xs = [] := (pickMaxBy_eq_none_iff key xs).mp hrec
      subst hxs
      rcases List.mem_singleton.mp hb with rfl
      exact h ▸ le_refl _
    | some c =>
      rw [hrec] at h
      simp only [Option.some.injEq] at h
      rcases List.mem_cons.mp hb with rfl | hbxs
      · by_cases hgt : key c > key b
        · rw [if_pos hgt] at h; exact h ▸ le_of_lt hgt
        · rw [if_neg hgt] at h; exact h ▸ le_refl _
      · have hbc : key b ≤ key c := ih hrec b hbxs
        by_cases hgt : key c > key x
        · rw [if_pos hgt] at h; exact h ▸ hbc
        · rw [if_neg hgt] at h
          exact h ▸ le_trans hbc (not_lt.mp hgt)

/-- The open-reception lookup is empty exactly when no open reception row
exists for the pickup point. -/
theorem getLastOpen_eq_none_iff (db : DB) (pvzId : Nat) :
    db.GetLastOpenReceptionByPVZID pvzId = none ↔ db.openReceptionsOf pvzId = [] :=
  pickMaxBy_eq_none_iff _ _

/-- A located open reception is an open reception row of the pickup point. -/
theorem getLastOpen_mem {db : DB} {pvzId : Nat} {r : Reception}
    (h : db.GetLastOpenReceptionByPVZID pvzId = some r) :
    r ∈ db.receptions ∧ r.pvzId = pvzId ∧ r.status = ReceptionStatus.inProgress := by
  have hmem := pickMaxBy_mem _ h
  rw [DB.openReceptionsOf] at hmem
  have := List.mem_filter.mp hmem
  exact ⟨this.1, of_decide_eq_true this.2⟩

/-- A located last product is a product row of the reception. -/
theorem getLastProduct_mem {db : DB} {receptionId : Nat} {p : Product}
    (h : db.GetLastProductByReceptionID receptionId = some p) :
    p ∈ db.products ∧ p.receptionId = receptionId := by
  have hmem := pickMaxBy_mem _ h
  rw [DB.productsOf] at hmem
  have := List.mem_filter.mp hmem
  exact ⟨this.1, of_decide_eq_true this.2⟩

/-- The located last product has the maximal sequence number. -/
theorem getLastProduct_max {db : DB} {receptionId : Nat} {p : Product}
    (h : db.GetLastProductByReceptionID receptionId = some p) :
    ∀ q ∈ db.productsOf receptionId, q.sequenceNum ≤ p.sequenceNum :=
  pickMaxBy_le _ h

/- ## Congruence: lookups depend only on their table -/

/-- `GetPVZByID` reads only the `pvz` table. -/
theorem getPVZByID_congr {db db' : DB} (h : db'.pvzs = db.pvzs) (id : Nat) :
    db'.GetPVZByID id = db.GetPVZByID id := by
  rw [DB.GetPVZByID, DB.GetPVZByID, h]

/-- `openReceptionsOf` reads only the `receptions` table. -/
theorem openReceptionsOf_congr {db db' : DB} (h : db'.receptions = db.receptions)
    (pvzId : Nat) : db'.openReceptionsOf pvzId = db.openReceptionsOf pvzId := by
  rw [DB.openReceptionsOf, DB.openReceptionsOf, h]

/-- `GetLastOpenReceptionByPVZID` reads only the `receptions` table. -/
theorem getLastOpen_congr {db db' : DB} (h : db'.receptions = db.receptions)
    (pvzId : Nat) :
    db'.GetLastOpenReceptionByPVZID pvzId = db.GetLastOpenReceptionByPVZID pvzId := by
  rw [DB.GetLastOpenReceptionByPVZID, DB.GetLastOpenReceptionByPVZID,
    openReceptionsOf_congr h]

/-- `productsOf` reads only the `products` table. -/
theorem productsOf_congr {db db' : DB} (h : db'.products = db.products)
    (receptionId : Nat) : db'.productsOf receptionId = db.productsOf receptionId := by
  rw [DB.productsOf, DB.productsOf, h]

/- ## Frame lemmas: which tables each service operation can touch -/

/-- `AddProduct` never changes the `receptions` table. -/
theorem addProduct_receptions (db : DB) (pvzID : Nat) (t : String) :
    (AddProduct db pvzID t).2.receptions = db.receptions := by
  rw [AddProduct]
  split
  · rfl
  · split
    · rfl
    · split
      · rfl
      · rfl

/-- `AddProduct` never changes the `pvz` table. -/
theorem addProduct_pvzs (db : DB) (pvzID : Nat) (t : String) :
    (AddProduct db pvzID t).2.pvzs = db.pvzs := by
  rw [AddProduct]
  split
  · rfl
  · split
    · rfl
    · split
      · rfl
      · rfl

/-- `DeleteLastProduct` never changes the `receptions` table. -/
theorem deleteLastProduct_receptions (db : DB) (pvzID : Nat) :
    (DeleteLastProduct db pvzID).2.receptions = db.receptions := by
  rw [DeleteLastProduct]
  split
  · rfl
  · split
    · rfl
    · rfl

/-- `DeleteLastProduct` never changes the `pvz` table. -/
theorem deleteLastProduct_pvzs (db : DB) (pvzID : Nat) :
    (DeleteLastProduct db pvzID).2.pvzs = db.pvzs := by
  rw [DeleteLastProduct]
  split
  · rfl
  · split
    · rfl
    · rfl

/-- `CreatePVZ` never changes the `receptions` table. -/
theorem createPVZ_receptions (db : DB) (city : String) :
    (CreatePVZ db city).2.receptions = db.receptions := by
  rw [CreatePVZ]
  split
  · rfl
  · rfl

/-- `CreateReception` never changes the `pvz` table. -/
theorem createReception_pvzs (db : DB) (pvzID : Nat) :
    (CreateReception db pvzID).2.pvzs = db.pvzs := by
  rw [CreateReception]
  split
  · rfl
  · split
    · rfl
    · rfl

/-- `CloseLastReception` never changes the `pvz` table. -/
theorem closeLastReception_pvzs (db : DB) (pvzID : Nat) :
    (CloseLastReception db pvzID).2.pvzs = db.pvzs := by
  rw [CloseLastReception]
  split
  · rfl
  · dsimp only
    split
    · rfl
    · rfl

end PvzService

namespace PvzService

/-- Re-reading a reception right after closing it always finds a row. -/
theorem closeReception_find {db : DB} {r : Reception} (hr : r ∈ db.receptions) :
    ∃ u, (db.CloseReception r.id).GetReceptionByID r.id = some u := by
  rw [DB.GetReceptionByID]
  have hx : ∃ x ∈ (db.CloseReception r.id).receptions, decide (x.id = r.id) = true := by
    refine ⟨{ r with status := ReceptionStatus.close }, ?_, by simp⟩
    rw [DB.CloseReception]
    have := List.mem_map_of_mem
      (fun x => if x.id = r.id then { x with status := ReceptionStatus.close } else x) hr
    simpa using this
  have := List.find?_isSome.mpr hx
  exact Option.isSome_iff_exists.mp this

/-- C9: a failed operation leaves all prior state unchanged — whenever
`CreatePVZ`, `CreateReception`, `CloseLastReception`, `AddProduct`,
`DeleteLastProduct` or the reception lookup returns an error, the database it
returns is exactly the database it was given (no partial mutation). -/
theorem c9_failed_operations_leave_state_unchanged :
    (∀ (db : DB) (city e : String),
        (CreatePVZ db city).1 = Except.error e → (CreatePVZ db city).2 = db) ∧
    (∀ (db : DB) (pvzID : Nat) (e : String),
        (CreateReception db pvzID).1 = Except.error e →
          (CreateReception db pvzID).2 = db) ∧
    (∀ (db : DB) (pvzID : Nat) (e : String),
        (CloseLastReception db pvzID).1 = Except.error e →
          (CloseLastReception db pvzID).2 = db) ∧
    (∀ (db : DB) (pvzID : Nat) (t e : String),
        (AddProduct db pvzID t).1 = Except.error e → (AddProduct db pvzID t).2 = db) ∧
    (∀ (db : DB) (pvzID : Nat) (e : String),
        (DeleteLastProduct db pvzID).1 = Except.error e →
          (DeleteLastProduct db pvzID).2 = db) ∧
    (∀ (db : DB) (id : Nat) (e : String),
        (GetReceptionByIDService db id).1 = Except.error e →
          (GetReceptionByIDService db id).2 = db) := by
  refine ⟨?_, ?_, ?_, ?_, ?_, ?_⟩
  · intro db city e h
    rw [CreatePVZ] at h ⊢
    split at h
    · simp at h
    · rename_i hmem
      rw [if_neg hmem]
  · intro db pvzID e h
    rw [CreateReception] at h ⊢
    split at h
    · rfl
    · split at h
      · rfl
      · simp at h
  · intro db pvzID e h
    rw [CloseLastReception] at h ⊢
    split at h
    · rfl
    · rename_i r heq
      dsimp only at h ⊢
      obtain ⟨u, hu⟩ := closeReception_find (getLastOpen_mem heq).1
      rw [hu] at h
      simp at h
  · intro db pvzID t e h
    rw [AddProduct] at h ⊢
    split at h
    · rfl
    · split at h
      · rename_i hcond
        rw [if_pos hcond]
      · rename_i hcond
        rw [if_neg hcond]
        split at h
        · rfl
        · simp at h
  · intro db pvzID e h
    rw [DeleteLastProduct] at h ⊢
    split at h
    · rfl
    · split at h
      · rfl
      · simp at h
  · intro db id e h
    rw [GetReceptionByIDService] at h ⊢
    split at h
    · rfl
    · simp at h

/-- Witness for C9: a failing `AddProduct` on the empty database leaves it
unchanged. -/
theorem c9_witness :
    (AddProduct dbEmpty 0 TypeElectronics).1 = Except.error errPvzNotFound ∧
    (AddProduct dbEmpty 0 TypeElectronics).2 = dbEmpty :=
  ⟨by decide,
   c9_failed_operations_leave_state_unchanged.2.2.2.1 dbEmpty 0 TypeElectronics
     errPvzNotFound (by decide)⟩

/-- Counterexample for C4: on a pickup-point identifier matching no pickup
point, `DeleteLastProduct` fails with the no-open-reception error, not with
the not-found error that `AddProduct` reports on the same state. -/
theorem c4_counterexample :
    dbEmpty.GetPVZByID 0 = none ∧
    (DeleteLastProduct dbEmpty 0).1 = Except.error errNoOpenReception ∧
    (DeleteLastProduct dbEmpty 0).1 ≠ Except.error errPvzNotFound ∧
    (AddProduct dbEmpty 0 TypeElectronics).1 = Except.error errPvzNotFound := by
  decide

/-- C4 (amended): `DeleteLastProduct` performs no pickup-point existence
check: whenever no open reception exists for the given identifier — in
particular for an identifier matching no pickup point — it fails with
`NoOpenReception` and changes nothing, and its only possible error outcomes
are `NoOpenReception` and `EmptyReception`, never the pickup-point
`NotFound` error that `AddProduct` reports. -/
theorem c4_removeLast_error_conditions :
    (∀ (db : DB) (pvzID : Nat), db.GetLastOpenReceptionByPVZID pvzID = none →
        DeleteLastProduct db pvzID = (Except.error errNoOpenReception, db)) ∧
    (∀ (db : DB) (pvzID : Nat) (e : String),
        (DeleteLastProduct db pvzID).1 = Except.error e →
          e = errNoOpenReception ∨ e = errNoProducts) := by
  constructor
  · intro db pvzID h
    rw [DeleteLastProduct, h]
  · intro db pvzID e h
    rw [DeleteLastProduct] at h
    split at h
    · exact Or.inl (by simpa using h.symm)
    · split at h
      · exact Or.inr (by simpa using h.symm)
      · simp at h

/-- Witness for C4 (amended): the empty database has no open reception for
identifier 0, and the deletion fails accordingly. -/
theorem c4_witness :
    dbEmpty.GetLastOpenReceptionByPVZID 0 = none ∧
    DeleteLastProduct dbEmpty 0 = (Except.error errNoOpenReception, dbEmpty) :=
  ⟨by decide, c4_removeLast_error_conditions.1 dbEmpty 0 (by decide)⟩

/-- C6: creating a pickup point in city `Москва` (Moscow) succeeds and
returns a fresh identifier, and `CreatePVZ` fails with the invalid-location
error exactly when the city is outside the fixed three-city allow-list. -/
theorem c6_createPVZ_allowlist :
    (∀ db : DB, WF db →
        (CreatePVZ db "Москва").1 = Except.ok ⟨db.nextId, db.now, "Москва"⟩ ∧
        db.nextId ∉ db.pvzs.map PVZ.id ∧
        (CreatePVZ db "Москва").2.pvzs = db.pvzs ++ [⟨db.nextId, db.now, "Москва"⟩]) ∧
    (∀ (db : DB) (city : String),
        (CreatePVZ db city).1 = Except.error errInvalidCity ↔ city ∉ AllowedCities) := by
  constructor
  · intro db hwf
    have hmem : ("Москва" : String) ∈ AllowedCities := by decide
    refine ⟨by rw [CreatePVZ, if_pos hmem]; rfl, ?_,
      by rw [CreatePVZ, if_pos hmem]; rfl⟩
    intro hid
    obtain ⟨v, hv, hveq⟩ := List.mem_map.mp hid
    exact absurd (hveq ▸ hwf.pvzIdLt v hv) (lt_irrefl _)
  · intro db city
    by_cases hmem : city ∈ AllowedCities
    · rw [CreatePVZ, if_pos hmem]
      simp [hmem]
    · rw [CreatePVZ, if_neg hmem]
      simp [hmem]

/-- Witness for C6: creating Moscow on the empty database yields pickup
point 0. -/
theorem c6_witness :
    (CreatePVZ dbEmpty "Москва").1 = Except.ok ⟨0, 0, "Москва"⟩ :=
  (c6_createPVZ_allowlist.1 dbEmpty
      ⟨by simp [dbEmpty], by simp [dbEmpty], by simp [dbEmpty], by simp [dbEmpty]⟩).1

end PvzService

namespace PvzService

/-- A valid product type falsifies the rejection condition of `AddProduct`. -/
theorem validType_not_rejected {t : String} (ht : ValidType t) :
    ¬(t ≠ TypeElectronics ∧ t ≠ TypeClothes ∧ t ≠ TypeFootwear) := by
  rcases ht with h | h | h <;> simp [h]

/-- Structure of a successful `AddProduct`: with the pickup point present, a
valid type, and an open reception, it inserts exactly one product carrying
`sequence_num = count + 1` for that reception. -/
theorem addProduct_ok_eq {db : DB} {pvzID : Nat} {t : String} {v : PVZ}
    {R : Reception} (hv : db.GetPVZByID pvzID = some v)
    (hR : db.GetLastOpenReceptionByPVZID pvzID = some R) (ht : ValidType t) :
    AddProduct db pvzID t =
      (Except.ok ⟨db.nextId, db.now, t, R.id, db.CountProductsByReceptionID R.id + 1⟩,
       { db with
         products := db.products ++
           [⟨db.nextId, db.now, t, R.id, db.CountProductsByReceptionID R.id + 1⟩],
         nextId := db.nextId + 1 }) := by
  rw [AddProduct, hv, if_neg (validType_not_rejected ht), hR]
  rfl

/-- Appending one product for a reception extends `productsOf` that
reception by exactly that product. -/
theorem productsOf_snoc (db : DB) (p : Product) (nid : Nat)
    (hp : p.receptionId = receptionId) :
    (({ db with products := db.products ++ [p], nextId := nid } : DB).productsOf
        receptionId) = db.productsOf receptionId ++ [p] := by
  rw [DB.productsOf, DB.productsOf]
  simp [List.filter_append, hp]

/-- `seqTarget` has length `n`. -/
theorem seqTarget_length (n : Nat) : (seqTarget n).length = n := by
  rw [seqTarget, List.length_map, List.length_range]

/-- `seqTarget (n+1)` appends `n + 1` to `seqTarget n`. -/
theorem seqTarget_succ (n : Nat) : seqTarget (n + 1) = seqTarget n ++ [(n : Int) + 1] := by
  rw [seqTarget, List.range_succ]
  simp [seqTarget]

/-- `seqTarget` is strictly increasing. -/
theorem seqTarget_pairwise (n : Nat) : (seqTarget n).Pairwise (· < ·) := by
  rw [seqTarget, List.pairwise_map]
  refine (List.pairwise_lt_range n).imp ?_
  intro a b h
  have hab : (a : Int) < (b : Int) := by exact_mod_cast h
  simpa using by omega

/-- `seqTarget` has no duplicates. -/
theorem seqTarget_nodup (n : Nat) : (seqTarget n).Nodup :=
  (seqTarget_pairwise n).imp (fun h => ne_of_lt h)

/-- One `AddProduct` step under the sequencing invariant. -/
theorem addProduct_step {db : DB} {pvzID : Nat} {t : String} {v : PVZ}
    {R : Reception} {k : Nat} (hv : db.GetPVZByID pvzID = some v)
    (hR : db.GetLastOpenReceptionByPVZID pvzID = some R) (ht : ValidType t)
    (hseq : (db.productsOf R.id).map Product.sequenceNum = seqTarget k) :
    (AddProduct db pvzID t).1 =
      Except.ok ⟨db.nextId, db.now, t, R.id, (k : Int) + 1⟩ ∧
    (AddProduct db pvzID t).2.pvzs = db.pvzs ∧
    (AddProduct db pvzID t).2.receptions = db.receptions ∧
    ((AddProduct db pvzID t).2.productsOf R.id).map Product.sequenceNum =
      seqTarget (k + 1) := by
  have hcount : db.CountProductsByReceptionID R.id = (k : Int) := by
    rw [DB.CountProductsByReceptionID]
    have : (db.productsOf R.id).length = k := by
      have := congrArg List.length hseq
      simpa [seqTarget_length] using this
    rw [this]
  rw [addProduct_ok_eq hv hR ht, hcount]
  refine ⟨rfl, rfl, rfl, ?_⟩
  rw [productsOf_snoc db _ _ rfl, List.map_append, hseq, seqTarget_succ]
  rfl

/-- The sequencing invariant holds after every number of iterated appends. -/
theorem iterAppend_inv {db : DB} {pvzID : Nat} {t : String} {v : PVZ}
    {R : Reception} (hv : db.GetPVZByID pvzID = some v)
    (hR : db.GetLastOpenReceptionByPVZID pvzID = some R) (ht : ValidType t)
    (hfresh : db.productsOf R.id = []) : ∀ n : Nat,
    (iterAppend pvzID t db n).GetPVZByID pvzID = some v ∧
    (iterAppend pvzID t db n).GetLastOpenReceptionByPVZID pvzID = some R ∧
    ((iterAppend pvzID t db n).productsOf R.id).map Product.sequenceNum =
      seqTarget n := by
  intro n
  induction n with
  | zero =>
    refine ⟨hv, hR, ?_⟩
    rw [iterAppend, hfresh]
    rfl
  | succ m ih =>
    obtain ⟨ihv, ihR, ihseq⟩ := ih
    obtain ⟨_, hpvzs, hrecs, hseq'⟩ := addProduct_step ihv ihR ht ihseq
    exact ⟨(getPVZByID_congr hpvzs pvzID).trans ihv,
      (getLastOpen_congr hrecs pvzID).trans ihR, hseq'⟩

/-- C1: with the pickup point present, a valid category and an open
reception, a successful `AddProduct` assigns the new item
`sequence_num = count + 1` where `count` is the current number of the open
reception's items; consequently `n` sequential appends to a freshly opened
(empty) reception yield items with sequence numbers `1, 2, ..., n` in
creation order, which are pairwise distinct and strictly increasing, and
every one of the `n` appends succeeds with sequence number `k + 1` at step
`k`. -/
theorem c1_addProduct_sequencing :
    (∀ (db : DB) (pvzID : Nat) (t : String) (v : PVZ) (R : Reception),
        db.GetPVZByID pvzID = some v →
        db.GetLastOpenReceptionByPVZID pvzID = some R → ValidType t →
        (AddProduct db pvzID t).1 =
          Except.ok ⟨db.nextId, db.now, t, R.id,
            db.CountProductsByReceptionID R.id + 1⟩) ∧
    (∀ (db : DB) (pvzID : Nat) (t : String) (v : PVZ) (R : Reception) (n : Nat),
        db.GetPVZByID pvzID = some v →
        db.GetLastOpenReceptionByPVZID pvzID = some R → ValidType t →
        db.productsOf R.id = [] →
        ((iterAppend pvzID t db n).productsOf R.id).map Product.sequenceNum =
          seqTarget n ∧
        (((iterAppend pvzID t db n).productsOf R.id).map
            Product.sequenceNum).Pairwise (· < ·) ∧
        (((iterAppend pvzID t db n).productsOf R.id).map
            Product.sequenceNum).Nodup ∧
        (∀ k : Nat, k < n →
          (AddProduct (iterAppend pvzID t db k) pvzID t).1 =
            Except.ok ⟨(iterAppend pvzID t db k).nextId,
              (iterAppend pvzID t db k).now, t, R.id, (k : Int) + 1⟩)) := by
  constructor
  · intro db pvzID t v R hv hR ht
    rw [addProduct_ok_eq hv hR ht]
  · intro db pvzID t v R n hv hR ht hfresh
    have hseq := (iterAppend_inv hv hR ht hfresh n).2.2
    refine ⟨hseq, hseq ▸ seqTarget_pairwise n, hseq ▸ seqTarget_nodup n, ?_⟩
    intro k _
    obtain ⟨ihv, ihR, ihseq⟩ := iterAppend_inv hv hR ht hfresh k
    exact (addProduct_step ihv ihR ht ihseq).1

/-- Witness for C1: three appends to the fresh open reception of `dbOpen`
produce sequence numbers `[1, 2, 3]`. -/
theorem c1_witness :
    dbOpen.GetPVZByID 0 = some samplePVZ ∧
    dbOpen.GetLastOpenReceptionByPVZID 0 = some sampleReception ∧
    dbOpen.productsOf sampleReception.id = [] ∧
    ((iterAppend 0 TypeElectronics dbOpen 3).productsOf
        sampleReception.id).map Product.sequenceNum = seqTarget 3 :=
  ⟨by decide, by decide, by decide,
   (c1_addProduct_sequencing.2 dbOpen 0 TypeElectronics samplePVZ sampleReception 3
      (by decide) (by decide) (Or.inl rfl) (by decide)).1⟩

end PvzService

namespace PvzService

/-- Filtering after a pointwise update `f` that never turns a non-matching
element into a matching one cannot increase the filtered length. -/
theorem length_filter_map_le {α} (f : α → α) (P : α → Bool)
    (h : ∀ a, P (f a) = true → P a = true) :
    ∀ l : List α, ((l.map f).filter P).length ≤ (l.filter P).length := by
  intro l
  induction l with
  | nil => simp
  | cons a as ih =>
    rw [List.map_cons, List.filter_cons, List.filter_cons]
    by_cases hfa : P (f a) = true
    · rw [if_pos hfa, if_pos (h a hfa)]
      simpa using ih
    · rw [if_neg hfa]
      split
      · exact le_trans ih (Nat.le_succ _)
      · exact ih

/-- The invariant transfers along equality of the `receptions` table. -/
theorem openInv_congr {db db' : DB} (h : db'.receptions = db.receptions)
    (hinv : OpenInv db) : OpenInv db' := by
  intro pid
  rw [OpenInv] at hinv
  rw [openReceptionsOf_congr h pid]
  exact hinv pid

/-- Closing any reception preserves the invariant. -/
theorem openInv_closeReception {db : DB} (id : Nat) (hinv : OpenInv db) :
    OpenInv (db.CloseReception id) := by
  intro pid
  show ((db.receptions.map
      (fun r => if r.id = id then { r with status := ReceptionStatus.close } else r)).filter
      (fun r => decide (r.pvzId = pid ∧ r.status = ReceptionStatus.inProgress))).length ≤ 1
  refine le_trans (length_filter_map_le _ _ ?_ db.receptions) (hinv pid)
  intro a ha
  by_cases hid : a.id = id
  · rw [if_pos hid] at ha
    simp at ha
  · rw [if_neg hid] at ha
    exact ha

/-- C2: every service operation preserves "at most one open reception per
pickup point", and `CreateReception` on an existing pickup point that already
has an open reception fails with the conflict error, creating nothing. -/
theorem c2_single_open_reception :
    (∀ (db : DB) (city : String), OpenInv db → OpenInv (CreatePVZ db city).2) ∧
    (∀ (db : DB) (pvzID : Nat), OpenInv db → OpenInv (CreateReception db pvzID).2) ∧
    (∀ (db : DB) (pvzID : Nat), OpenInv db → OpenInv (CloseLastReception db pvzID).2) ∧
    (∀ (db : DB) (pvzID : Nat) (t : String), OpenInv db →
        OpenInv (AddProduct db pvzID t).2) ∧
    (∀ (db : DB) (pvzID : Nat), OpenInv db → OpenInv (DeleteLastProduct db pvzID).2) ∧
    (∀ (db : DB) (pvzID : Nat) (v : PVZ) (r : Reception),
        db.GetPVZByID pvzID = some v → r ∈ db.receptions → r.pvzId = pvzID →
        r.status = ReceptionStatus.inProgress →
        CreateReception db pvzID = (Except.error errAlreadyOpen, db)) := by
  refine ⟨?_, ?_, ?_, ?_, ?_, ?_⟩
  · intro db city hinv
    exact openInv_congr (createPVZ_receptions db city) hinv
  · intro db pvzID hinv
    rw [CreateReception]
    split
    · exact hinv
    · split
      · exact hinv
      · rename_i heq
        have hnil : db.openReceptionsOf pvzID = [] :=
          (getLastOpen_eq_none_iff db pvzID).mp heq
        intro pid
        have hsplit :
            (({ db with
                receptions := db.receptions ++
                  [⟨db.nextId, db.now, pvzID, ReceptionStatus.inProgress⟩],
                nextId := db.nextId + 1 } : DB).openReceptionsOf pid) =
              db.openReceptionsOf pid ++
                List.filter
                  (fun r => decide (r.pvzId = pid ∧ r.status = ReceptionStatus.inProgress))
                  [⟨db.nextId, db.now, pvzID, ReceptionStatus.inProgress⟩] := by
          rw [DB.openReceptionsOf, DB.openReceptionsOf]
          exact List.filter_append _ _
        show (({ db with
            receptions := db.receptions ++
              [⟨db.nextId, db.now, pvzID, ReceptionStatus.inProgress⟩],
            nextId := db.nextId + 1 } : DB).openReceptionsOf pid).length ≤ 1
        rw [hsplit]
        by_cases hpid : pid = pvzID
        · subst hpid
          rw [hnil]
          simp
        · have hne : List.filter
              (fun r : Reception =>
                decide (r.pvzId = pid ∧ r.status = ReceptionStatus.inProgress))
              [⟨db.nextId, db.now, pvzID, ReceptionStatus.inProgress⟩] = [] := by
            simp
            exact fun h => hpid h.symm
          rw [hne, List.append_nil]
          exact hinv pid
  · intro db pvzID hinv
    rw [CloseLastReception]
    split
    · exact hinv
    · dsimp only
      split
      · exact openInv_closeReception _ hinv
      · exact openInv_closeReception _ hinv
  · intro db pvzID t hinv
    exact openInv_congr (addProduct_receptions db pvzID t) hinv
  · intro db pvzID hinv
    exact openInv_congr (deleteLastProduct_receptions db pvzID) hinv
  · intro db pvzID v r hv hr hrp hrs
    cases hopen : db.GetLastOpenReceptionByPVZID pvzID with
    | none =>
      exfalso
      have hmem : r ∈ db.openReceptionsOf pvzID :=
        List.mem_filter.mpr ⟨hr, by simp [hrp, hrs]⟩
      rw [(getLastOpen_eq_none_iff db pvzID).mp hopen] at hmem
      exact absurd hmem (List.not_mem_nil r)
    | some x =>
      rw [CreateReception, hv, hopen]

/-- Witness for C2: on a state with one open reception, `CreateReception`
conflicts and the invariant is preserved by `AddProduct`. -/
theorem c2_witness :
    CreateReception dbOpen 0 = (Except.error errAlreadyOpen, dbOpen) ∧
    OpenInv (AddProduct dbOpen 0 TypeElectronics).2 :=
  ⟨c2_single_open_reception.2.2.2.2.2 dbOpen 0 samplePVZ sampleReception
      (by decide) (by decide) (by decide) (by decide),
   c2_single_open_reception.2.2.2.1 dbOpen 0 TypeElectronics
      (fun _ => le_trans (List.length_filter_le _ _) (le_refl 1))⟩

end PvzService

namespace PvzService

/-- Unfolding a successful `DeleteLastProduct`. -/
theorem deleteLastProduct_ok_eq {db : DB} {pvzID : Nat} {R : Reception}
    {L : Product} (hR : db.GetLastOpenReceptionByPVZID pvzID = some R)
    (hL : db.GetLastProductByReceptionID R.id = some L) :
    DeleteLastProduct db pvzID = (Except.ok (), db.DeleteProductByID L.id) := by
  simp only [DeleteLastProduct, hR, hL]

/-- C3: whenever `DeleteLastProduct` locates an open reception and a last
product, it succeeds and removes exactly the located product — a product of
that reception with maximal sequence number; the surviving `products` table
is precisely the old one with the rows carrying that product's id removed,
every product with a different id survives untouched (in particular with its
sequence number unmodified), nothing new appears, and the `receptions` and
`pvz` tables are untouched. -/
theorem c3_removeLast_deletes_max (db : DB) (pvzID : Nat) (R : Reception)
    (L : Product) (hR : db.GetLastOpenReceptionByPVZID pvzID = some R)
    (hL : db.GetLastProductByReceptionID R.id = some L) :
    (DeleteLastProduct db pvzID).1 = Except.ok () ∧
    L ∈ db.productsOf R.id ∧
    (∀ q ∈ db.productsOf R.id, q.sequenceNum ≤ L.sequenceNum) ∧
    (DeleteLastProduct db pvzID).2.products =
      db.products.filter (fun p => decide (¬ p.id = L.id)) ∧
    (∀ p ∈ db.products, p.id ≠ L.id → p ∈ (DeleteLastProduct db pvzID).2.products) ∧
    (∀ p ∈ (DeleteLastProduct db pvzID).2.products, p ∈ db.products) ∧
    (∀ p ∈ (DeleteLastProduct db pvzID).2.products, p.id ≠ L.id) ∧
    (DeleteLastProduct db pvzID).2.receptions = db.receptions ∧
    (DeleteLastProduct db pvzID).2.pvzs = db.pvzs := by
  rw [deleteLastProduct_ok_eq hR hL]
  refine ⟨rfl, pickMaxBy_mem _ hL, getLastProduct_max hL, rfl, ?_, ?_, ?_, rfl, rfl⟩
  · intro p hp hne
    exact List.mem_filter.mpr ⟨hp, by simp [hne]⟩
  · intro p hp
    exact (List.mem_filter.mp hp).1
  · intro p hp
    have := (List.mem_filter.mp hp).2
    simpa using this

/-- Witness for C3: on the two-product state the deletion succeeds, and the
located last product is the one with sequence number 2. -/
theorem c3_witness :
    dbTwo.GetLastOpenReceptionByPVZID 0 = some sampleReception ∧
    dbTwo.GetLastProductByReceptionID sampleReception.id =
      some ⟨3, 2, TypeElectronics, 1, 2⟩ ∧
    (DeleteLastProduct dbTwo 0).1 = Except.ok () :=
  ⟨by decide, by decide,
   (c3_removeLast_deletes_max dbTwo 0 sampleReception ⟨3, 2, TypeElectronics, 1, 2⟩
      (by decide) (by decide)).1⟩

/-- Removing one member from a list of products with pairwise-distinct ids
shrinks its length by exactly one. -/
theorem length_filter_erase_id {xs : List Product} {L : Product}
    (hnodup : (xs.map Product.id).Nodup) (hmem : L ∈ xs) :
    (xs.filter (fun p => decide (¬ p.id = L.id))).length + 1 = xs.length := by
  induction xs with
  | nil => cases hmem
  | cons a as ih =>
    rw [List.map_cons, List.nodup_cons] at hnodup
    rw [List.filter_cons]
    by_cases hid : a.id = L.id
    · rw [if_neg (by simp [hid])]
      have hall : as.filter (fun p => decide (¬ p.id = L.id)) = as := by
        rw [List.filter_eq_self]
        intro p hp
        simp only [decide_eq_true_eq]
        intro hpL
        exact hnodup.1 (List.mem_map.mpr ⟨p, hp, by rw [hpL, hid]⟩)
      rw [hall, List.length_cons]
    · rw [if_pos (by simp [hid])]
      have hLas : L ∈ as := by
        rcases List.mem_cons.mp hmem with rfl | h
        · exact absurd rfl hid
        · exact h
      rw [List.length_cons, List.length_cons, ← ih hnodup.2 hLas]

/-- Deleting by id commutes with restricting to a reception. -/
theorem productsOf_delete (db : DB) (receptionId delId : Nat) :
    (db.DeleteProductByID delId).productsOf receptionId =
      (db.productsOf receptionId).filter (fun p => decide (¬ p.id = delId)) := by
  rw [DB.productsOf, DB.DeleteProductByID, DB.productsOf]
  show (db.products.filter _).filter _ = (db.products.filter _).filter _
  rw [List.filter_filter, List.filter_filter]
  exact List.filter_congr (fun a _ => by rw [Bool.and_comm])

/-- In a well-formed state, the products of one reception have pairwise
distinct ids. -/
theorem productsOf_ids_nodup {db : DB} (hwf : WF db) (receptionId : Nat) :
    ((db.productsOf receptionId).map Product.id).Nodup :=
  List.Nodup.sublist (List.Sublist.map Product.id (List.filter_sublist db.products))
    hwf.prodIdsNodup

/-- C8: if the deleted last product's sequence number equals the current item
count of the open reception (as it does for count-based numbering), then a
`DeleteLastProduct` followed immediately by a successful `AddProduct` — with
no intervening append — assigns the new item exactly the freed sequence
number instead of continuing to increment. -/
theorem c8_append_reuses_freed_number (db : DB) (pvzID : Nat) (v : PVZ)
    (R : Reception) (L : Product) (t : String) (hwf : WF db)
    (hv : db.GetPVZByID pvzID = some v)
    (hR : db.GetLastOpenReceptionByPVZID pvzID = some R)
    (hL : db.GetLastProductByReceptionID R.id = some L) (ht : ValidType t)
    (hk : L.sequenceNum = db.CountProductsByReceptionID R.id) :
    (DeleteLastProduct db pvzID).1 = Except.ok () ∧
    ∃ p, (AddProduct (DeleteLastProduct db pvzID).2 pvzID t).1 = Except.ok p ∧
      p.receptionId = R.id ∧ p.sequenceNum = L.sequenceNum := by
  rw [deleteLastProduct_ok_eq hR hL]
  refine ⟨rfl, ?_⟩
  set db1 := db.DeleteProductByID L.id with hdb1
  have hpvzs : db1.pvzs = db.pvzs := rfl
  have hrecs : db1.receptions = db.receptions := rfl
  have hv1 : db1.GetPVZByID pvzID = some v := (getPVZByID_congr hpvzs pvzID).trans hv
  have hR1 : db1.GetLastOpenReceptionByPVZID pvzID = some R :=
    (getLastOpen_congr hrecs pvzID).trans hR
  refine ⟨_, congrArg Prod.fst (addProduct_ok_eq hv1 hR1 ht), rfl, ?_⟩
  show db1.CountProductsByReceptionID R.id + 1 = L.sequenceNum
  have hmem : L ∈ db.productsOf R.id := pickMaxBy_mem _ hL
  have hlen : ((db.productsOf R.id).filter
      (fun p => decide (¬ p.id = L.id))).length + 1 = (db.productsOf R.id).length :=
    length_filter_erase_id (productsOf_ids_nodup hwf R.id) hmem
  have hcount1 : db1.CountProductsByReceptionID R.id =
      (((db.productsOf R.id).filter (fun p => decide (¬ p.id = L.id))).length : Int) := by
    rw [DB.CountProductsByReceptionID, hdb1, productsOf_delete]
  rw [hcount1, hk, DB.CountProductsByReceptionID]
  omega

/-- Witness for C8: deleting the sequence-2 product of the two-product state
and appending again yields sequence number 2. -/
theorem c8_witness :
    ∃ p, (AddProduct (DeleteLastProduct dbTwo 0).2 0 TypeElectronics).1 =
        Except.ok p ∧ p.receptionId = sampleReception.id ∧ p.sequenceNum = 2 :=
  (c8_append_reuses_freed_number dbTwo 0 samplePVZ sampleReception
      ⟨3, 2, TypeElectronics, 1, 2⟩ TypeElectronics
      ⟨by decide, by decide, by decide, by decide⟩
      (by decide) (by decide) (by decide) (Or.inl rfl) (by decide)).2

end PvzService

namespace PvzService

/-- Closing a freshly appended reception: the re-read by id finds the closed
copy when all previous receptions carry other ids. -/
theorem find_close_append (rs : List Reception) (r1 : Reception)
    (hfresh : ∀ r ∈ rs, r.id ≠ r1.id) :
    ((rs ++ [r1]).map
        (fun r => if r.id = r1.id then { r with status := ReceptionStatus.close } else r)).find?
      (fun r => decide (r.id = r1.id)) =
      some { r1 with status := ReceptionStatus.close } := by
  rw [List.map_append, List.find?_append]
  have h1 : (rs.map
      (fun r => if r.id = r1.id then { r with status := ReceptionStatus.close } else r)).find?
      (fun r => decide (r.id = r1.id)) = none := by
    rw [List.find?_eq_none]
    intro x hx
    obtain ⟨r, hr, rfl⟩ := List.mem_map.mp hx
    rw [if_neg (hfresh r hr)]
    simp [hfresh r hr]
  rw [h1]
  simp

/-- Closing a freshly appended open reception leaves no open reception for
its pickup point when there was none before. -/
theorem filter_close_append_nil (rs : List Reception) (r1 : Reception) (pid : Nat)
    (hnil : rs.filter
        (fun r => decide (r.pvzId = pid ∧ r.status = ReceptionStatus.inProgress)) = []) :
    ((rs ++ [r1]).map
        (fun r => if r.id = r1.id then { r with status := ReceptionStatus.close } else r)).filter
      (fun r => decide (r.pvzId = pid ∧ r.status = ReceptionStatus.inProgress)) = [] := by
  rw [List.filter_eq_nil_iff]
  intro x hx
  obtain ⟨r, hr, rfl⟩ := List.mem_map.mp hx
  by_cases hid : r.id = r1.id
  · rw [if_pos hid]
    simp
  · rw [if_neg hid]
    intro hpred
    rcases List.mem_append.mp hr with hrs | hr1
    · have hmem : r ∈ rs.filter
          (fun r => decide (r.pvzId = pid ∧ r.status = ReceptionStatus.inProgress)) :=
        List.mem_filter.mpr ⟨hrs, hpred⟩
      rw [hnil] at hmem
      exact absurd hmem (List.not_mem_nil r)
    · rw [List.mem_singleton] at hr1
      exact hid (by rw [hr1])

/-- C5: on an existing pickup point with no open reception, `CreateReception`
succeeds with a fresh open reception; `CloseLastReception` then succeeds and
returns that reception with status closed; calling `CloseLastReception` again
immediately fails with `NoOpenReception` and changes nothing; and a second
`CreateReception` succeeds again with a new (fresh-id) open reception. -/
theorem c5_open_close_open_round_trip (db : DB) (pvzID : Nat) (v : PVZ)
    (hwf : WF db) (hv : db.GetPVZByID pvzID = some v)
    (hnone : db.GetLastOpenReceptionByPVZID pvzID = none) :
    ∃ r1 db1 db2 r2 db3,
      CreateReception db pvzID = (Except.ok r1, db1) ∧
      r1.status = ReceptionStatus.inProgress ∧
      CloseLastReception db1 pvzID =
        (Except.ok { r1 with status := ReceptionStatus.close }, db2) ∧
      CloseLastReception db2 pvzID = (Except.error errNoOpenReception, db2) ∧
      CreateReception db2 pvzID = (Except.ok r2, db3) ∧
      r2.status = ReceptionStatus.inProgress ∧
      r2.id ∉ db2.receptions.map Reception.id := by
  have hnil : db.openReceptionsOf pvzID = [] :=
    (getLastOpen_eq_none_iff db pvzID).mp hnone
  have hnil' : db.receptions.filter
      (fun r => decide (r.pvzId = pvzID ∧ r.status = ReceptionStatus.inProgress)) = [] :=
    hnil
  have hfresh : ∀ r ∈ db.receptions,
      r.id ≠ (⟨db.nextId, db.now, pvzID, ReceptionStatus.inProgress⟩ : Reception).id :=
    fun r hr => Nat.ne_of_lt (hwf.recIdLt r hr)
  have h1 : CreateReception db pvzID =
      (Except.ok (⟨db.nextId, db.now, pvzID, ReceptionStatus.inProgress⟩ : Reception),
       ({ db with
          receptions := db.receptions ++
            [⟨db.nextId, db.now, pvzID, ReceptionStatus.inProgress⟩],
          nextId := db.nextId + 1 } : DB)) := by
    rw [CreateReception, hv, hnone]
    rfl
  have hopen1 : ({ db with
      receptions := db.receptions ++
        [⟨db.nextId, db.now, pvzID, ReceptionStatus.inProgress⟩],
      nextId := db.nextId + 1 } : DB).GetLastOpenReceptionByPVZID pvzID =
      some ⟨db.nextId, db.now, pvzID, ReceptionStatus.inProgress⟩ := by
    have hlist : ({ db with
        receptions := db.receptions ++
          [⟨db.nextId, db.now, pvzID, ReceptionStatus.inProgress⟩],
        nextId := db.nextId + 1 } : DB).openReceptionsOf pvzID =
        [⟨db.nextId, db.now, pvzID, ReceptionStatus.inProgress⟩] := by
      show (db.receptions ++
          ([⟨db.nextId, db.now, pvzID, ReceptionStatus.inProgress⟩] : List Reception)).filter
          (fun r : Reception =>
            decide (r.pvzId = pvzID ∧ r.status = ReceptionStatus.inProgress)) =
        ([⟨db.nextId, db.now, pvzID, ReceptionStatus.inProgress⟩] : List Reception)
      rw [List.filter_append, hnil']
      simp
    rw [DB.GetLastOpenReceptionByPVZID, hlist]
    rfl
  have hfind : (({ db with
      receptions := db.receptions ++
        [⟨db.nextId, db.now, pvzID, ReceptionStatus.inProgress⟩],
      nextId := db.nextId + 1 } : DB).CloseReception db.nextId).GetReceptionByID db.nextId =
      some { (⟨db.nextId, db.now, pvzID, ReceptionStatus.inProgress⟩ : Reception) with
             status := ReceptionStatus.close } :=
    find_close_append db.receptions ⟨db.nextId, db.now, pvzID, ReceptionStatus.inProgress⟩
      hfresh
  have h3 : CloseLastReception ({ db with
      receptions := db.receptions ++
        [⟨db.nextId, db.now, pvzID, ReceptionStatus.inProgress⟩],
      nextId := db.nextId + 1 } : DB) pvzID =
      (Except.ok ⟨db.nextId, db.now, pvzID, ReceptionStatus.close⟩,
       (({ db with
          receptions := db.receptions ++
            [⟨db.nextId, db.now, pvzID, ReceptionStatus.inProgress⟩],
          nextId := db.nextId + 1 } : DB).CloseReception db.nextId)) := by
    simp only [CloseLastReception, hopen1]
    rw [hfind]
  have hopen2 : (({ db with
      receptions := db.receptions ++
        [⟨db.nextId, db.now, pvzID, ReceptionStatus.inProgress⟩],
      nextId := db.nextId + 1 } : DB).CloseReception db.nextId).GetLastOpenReceptionByPVZID
      pvzID = none := by
    rw [getLastOpen_eq_none_iff]
    exact filter_close_append_nil db.receptions
      ⟨db.nextId, db.now, pvzID, ReceptionStatus.inProgress⟩ pvzID hnil'
  have h4 : CloseLastReception (({ db with
      receptions := db.receptions ++
        [⟨db.nextId, db.now, pvzID, ReceptionStatus.inProgress⟩],
      nextId := db.nextId + 1 } : DB).CloseReception db.nextId) pvzID =
      (Except.error errNoOpenReception,
       (({ db with
          receptions := db.receptions ++
            [⟨db.nextId, db.now, pvzID, ReceptionStatus.inProgress⟩],
          nextId := db.nextId + 1 } : DB).CloseReception db.nextId)) := by
    rw [CloseLastReception, hopen2]
  have hv2 : (({ db with
      receptions := db.receptions ++
        [⟨db.nextId, db.now, pvzID, ReceptionStatus.inProgress⟩],
      nextId := db.nextId + 1 } : DB).CloseReception db.nextId).GetPVZByID pvzID = some v :=
    (getPVZByID_congr rfl pvzID).trans hv
  have h5 : CreateReception (({ db with
      receptions := db.receptions ++
        [⟨db.nextId, db.now, pvzID, ReceptionStatus.inProgress⟩],
      nextId := db.nextId + 1 } : DB).CloseReception db.nextId) pvzID =
      (Except.ok (⟨db.nextId + 1, db.now, pvzID, ReceptionStatus.inProgress⟩ : Reception),
       ({ (({ db with
            receptions := db.receptions ++
              [⟨db.nextId, db.now, pvzID, ReceptionStatus.inProgress⟩],
            nextId := db.nextId + 1 } : DB).CloseReception db.nextId) with
          receptions := (({ db with
            receptions := db.receptions ++
              [⟨db.nextId, db.now, pvzID, ReceptionStatus.inProgress⟩],
            nextId := db.nextId + 1 } : DB).CloseReception db.nextId).receptions ++
              [⟨db.nextId + 1, db.now, pvzID, ReceptionStatus.inProgress⟩],
          nextId := db.nextId + 1 + 1 } : DB)) := by
    rw [CreateReception, hv2, hopen2]
    rfl
  have hnotmem : (db.nextId + 1) ∉ ((({ db with
      receptions := db.receptions ++
        [⟨db.nextId, db.now, pvzID, ReceptionStatus.inProgress⟩],
      nextId := db.nextId + 1 } : DB).CloseReception db.nextId).receptions).map
      Reception.id := by
    intro hmem
    have hmem' := hmem
    rw [show (({ db with
        receptions := db.receptions ++
          [⟨db.nextId, db.now, pvzID, ReceptionStatus.inProgress⟩],
        nextId := db.nextId + 1 } : DB).CloseReception db.nextId).receptions =
        ((db.receptions ++
            ([⟨db.nextId, db.now, pvzID, ReceptionStatus.inProgress⟩] : List Reception)).map
          (fun r : Reception => if r.id = db.nextId
            then { r with status := ReceptionStatus.close } else r)) from rfl,
      List.map_map] at hmem'
    obtain ⟨r, hr, hrid⟩ := List.mem_map.mp hmem'
    have hid : (Reception.id ∘ fun r : Reception =>
        if r.id = db.nextId then { r with status := ReceptionStatus.close } else r) r =
        r.id := by
      show (if r.id = db.nextId
        then ({ r with status := ReceptionStatus.close } : Reception) else r).id = r.id
      split <;> rfl
    rw [hid] at hrid
    rcases List.mem_append.mp hr with hrs | hrone
    · have hlt := hwf.recIdLt r hrs
      omega
    · rw [List.mem_singleton] at hrone
      rw [hrone] at hrid
      simp at hrid
  exact ⟨⟨db.nextId, db.now, pvzID, ReceptionStatus.inProgress⟩, _, _,
    ⟨db.nextId + 1, db.now, pvzID, ReceptionStatus.inProgress⟩, _,
    h1, rfl, h3, h4, h5, rfl, hnotmem⟩

end PvzService

namespace PvzService

/-- Witness for C5: the round trip on a database holding just one pickup
point. -/
theorem c5_witness :
    ∃ r1 db1 db2 r2 db3,
      CreateReception dbPvzOnly 0 = (Except.ok r1, db1) ∧
      r1.status = ReceptionStatus.inProgress ∧
      CloseLastReception db1 0 =
        (Except.ok { r1 with status := ReceptionStatus.close }, db2) ∧
      CloseLastReception db2 0 = (Except.error errNoOpenReception, db2) ∧
      CreateReception db2 0 = (Except.ok r2, db3) ∧
      r2.status = ReceptionStatus.inProgress ∧
      r2.id ∉ db2.receptions.map Reception.id :=
  c5_open_close_open_round_trip dbPvzOnly 0 samplePVZ
    ⟨by decide, by decide, by decide, by decide⟩ (by decide) (by decide)

end PvzService

namespace PvzService

/-- The paginated product fetch used by the reception lookup (`page = 1`,
`limit = 1000`) truncates the sorted products at 1000 entries. -/
theorem getProducts_page1_limit1000 (db : DB) (id : Nat) :
    db.GetProductsByReceptionID id 1 1000 =
      ((sortBySeq (db.productsOf id)).take 1000,
       ((db.productsOf id).length : Int)) :=
  rfl

set_option maxRecDepth 100000 in
/-- Counterexample for C7: on a reception owning 1001 products, the lookup
succeeds but returns only 1000 of them — at least one owned product is
missing from the result. -/
theorem c7_counterexample :
    ∃ w : ReceptionWithProducts,
      (GetReceptionByIDService dbBig 0).1 = Except.ok w ∧
      w.products.length = 1000 ∧
      (dbBig.productsOf 0).length = 1001 ∧
      ∃ p ∈ dbBig.productsOf 0, p ∉ w.products := by
  have hall : dbBig.productsOf 0 = dbBig.products := by
    rw [DB.productsOf, List.filter_eq_self]
    intro p hp
    obtain ⟨i, _, rfl⟩ := List.mem_map.mp hp
    simp
  have hlen1001 : (dbBig.productsOf 0).length = 1001 := by
    rw [hall]
    rw [show dbBig.products =
      (List.range 1001).map
        (fun i => (⟨i + 1, 0, TypeElectronics, 0, (i : Int) + 1⟩ : Product)) from rfl]
    rw [List.length_map, List.length_range]
  have hsortlen : (sortBySeq (dbBig.productsOf 0)).length = 1001 := by
    rw [sortBySeq, List.length_insertionSort, hlen1001]
  have hnodup : (dbBig.productsOf 0).Nodup := by
    rw [hall]
    rw [show dbBig.products =
      (List.range 1001).map
        (fun i => (⟨i + 1, 0, TypeElectronics, 0, (i : Int) + 1⟩ : Product)) from rfl]
    refine List.Nodup.map ?_ (List.nodup_range 1001)
    intro i j hij
    have := congrArg Product.id hij
    simpa using this
  refine ⟨⟨bigReception, (sortBySeq (dbBig.productsOf 0)).take 1000⟩, rfl, ?_, hlen1001, ?_⟩
  · rw [List.length_take, hsortlen]
    decide
  · by_contra hcon
    push_neg at hcon
    have hsub : dbBig.productsOf 0 ⊆ (sortBySeq (dbBig.productsOf 0)).take 1000 :=
      fun p hp => hcon p hp
    have hle := (List.Nodup.subperm hnodup hsub).length_le
    rw [hlen1001, List.length_take, hsortlen] at hle
    omega

/-- C7 (amended): `GetReceptionByID` fails with `NotFound` when no reception
matches; on success it returns the reception with its products ordered by
sequence number ascending, and — because the internal fetch uses page 1 with
limit 1000 — it returns every owned item exactly when the reception owns at
most 1000 items (beyond that the list is truncated to the first 1000). -/
theorem c7_getReception_with_items :
    (∀ (db : DB) (id : Nat) (r : Reception),
        db.GetReceptionByID id = some r → (db.productsOf id).length ≤ 1000 →
        (GetReceptionByIDService db id).1 =
          Except.ok ⟨r, sortBySeq (db.productsOf id)⟩ ∧
        (sortBySeq (db.productsOf id)).Perm (db.productsOf id) ∧
        (sortBySeq (db.productsOf id)).Pairwise
          (fun a b => a.sequenceNum ≤ b.sequenceNum) ∧
        (GetReceptionByIDService db id).2 = db) ∧
    (∀ (db : DB) (id : Nat), db.GetReceptionByID id = none →
        GetReceptionByIDService db id = (Except.error errReceptionNotFound, db)) := by
  constructor
  · intro db id r hr hlen
    have hpair : db.GetProductsByReceptionID id 1 1000 =
        (sortBySeq (db.productsOf id), ((db.productsOf id).length : Int)) := by
      rw [getProducts_page1_limit1000]
      rw [List.take_of_length_le]
      rw [sortBySeq, List.length_insertionSort]
      exact hlen
    have hok : GetReceptionByIDService db id =
        (Except.ok ⟨r, sortBySeq (db.productsOf id)⟩, db) := by
      rw [GetReceptionByIDService, hr]
      dsimp only
      rw [hpair]
    refine ⟨by rw [hok], ?_, List.sorted_insertionSort _ _, by rw [hok]⟩
    rw [sortBySeq]
    exact List.perm_insertionSort _ _
  · intro db id hnone
    rw [GetReceptionByIDService, hnone]

/-- Witness for C7 (amended): on the two-product state the lookup returns
both products in ascending order. -/
theorem c7_witness :
    (GetReceptionByIDService dbTwo 1).1 =
      Except.ok ⟨sampleReception, sortBySeq (dbTwo.productsOf 1)⟩ :=
  (c7_getReception_with_items.1 dbTwo 1 sampleReception (by decide) (by decide)).1

end PvzService

namespace PvzService

/-- Without both bounds, the reception fetch ignores the dates entirely. -/
theorem getReceptionsTx_no_range (db : DB) (pid s e : Nat)
    (h : ¬(s ≠ 0 ∧ e ≠ 0)) :
    db.getReceptionsByPVZIDTx pid s e = db.getReceptionsByPVZIDTx pid 0 0 := by
  rw [DB.getReceptionsByPVZIDTx, DB.getReceptionsByPVZIDTx, if_neg h,
    if_neg (by simp)]

/-- Without both bounds, `ListPVZ` takes the unfiltered branch everywhere. -/
theorem listPVZ_no_range (db : DB) (options : PVZListOptions)
    (h : ¬(options.startDate ≠ 0 ∧ options.endDate ≠ 0)) :
    db.ListPVZ options =
      ((((sortPVZById db.pvzs).drop
          ((((if options.page ≤ 0 then 1 else options.page) - 1) *
            (if options.limit ≤ 0 then 10 else options.limit)).toNat)).take
          (if options.limit ≤ 0 then 10 else options.limit).toNat).map
        (fun p => ⟨p, (db.getReceptionsByPVZIDTx p.id 0 0).map
            (fun r => ⟨r, db.getProductsByReceptionIDTx r.id⟩)⟩),
       ((db.pvzs.length : Nat) : Int)) := by
  rw [DB.ListPVZ]
  rw [if_neg h, if_neg h]
  refine congrArg₂ Prod.mk ?_ rfl
  refine List.map_congr_left ?_
  intro p _
  rw [getReceptionsTx_no_range db p.id _ _ h]

/-- C10: the date-range filter of the pickup-point listing takes effect only
when both `startDate` and `endDate` are non-zero — with exactly one bound
supplied, the call returns exactly what a call with no range at all returns:
the total counts all pickup points, and every returned entry carries all of
its receptions (each with its products), unfiltered by date. -/
theorem c10_list_date_filter_requires_both (db : DB) (options : PVZListOptions)
    (h : (options.startDate = 0 ∧ options.endDate ≠ 0) ∨
         (options.startDate ≠ 0 ∧ options.endDate = 0)) :
    db.ListPVZ options =
      db.ListPVZ { options with startDate := 0, endDate := 0 } ∧
    (db.ListPVZ options).2 = ((db.pvzs.length : Nat) : Int) ∧
    (∀ entry ∈ (db.ListPVZ options).1,
      entry.receptions =
        (sortByDateTime (db.receptions.filter
          (fun r => decide (r.pvzId = entry.pvz.id)))).map
          (fun r => ⟨r, db.getProductsByReceptionIDTx r.id⟩)) := by
  have hcond : ¬(options.startDate ≠ 0 ∧ options.endDate ≠ 0) := by
    rcases h with ⟨h1, _⟩ | ⟨_, h2⟩
    · exact fun hc => hc.1 h1
    · exact fun hc => hc.2 h2
  have hl := listPVZ_no_range db options hcond
  have hr := listPVZ_no_range db { options with startDate := 0, endDate := 0 }
    (by simp)
  refine ⟨by rw [hl, hr], by rw [hl], ?_⟩
  intro entry hmem
  rw [hl] at hmem
  obtain ⟨p, _, rfl⟩ := List.mem_map.mp hmem
  show (db.getReceptionsByPVZIDTx p.id 0 0).map _ = _
  rw [DB.getReceptionsByPVZIDTx, if_neg (by simp)]

/-- Witness for C10: supplying only a start date returns exactly the
no-range result. -/
theorem c10_witness :
    dbOpen.ListPVZ ⟨1, 10, 5, 0⟩ = dbOpen.ListPVZ ⟨1, 10, 0, 0⟩ :=
  (c10_list_date_filter_requires_both dbOpen ⟨1, 10, 5, 0⟩
    (Or.inr ⟨by decide, rfl⟩)).1

end PvzService
